import Mathlib

/-!
Verification of the FIQ demo driver (drivers/irqchip/firq/firq_driver.c).

The driver is embedded shallowly: every MMIO store, FIQ-controller call and
cross-core dispatch is recorded both in an explicit machine state and in an
event trace, so that ordering claims can be stated as facts about the trace
and state claims as facts about the final state.  Machine words (u32) are
modelled as Nat with explicit reduction modulo 2 ^ 32 at each cast site.
-/

namespace Firq

/-- Observable actions of the driver, in program order. -/
inductive Event where
  /-- writel of a word value into the OCRAM scratch block, at the given
      word index (byte offset divided by 4). -/
  | writeOcram (wordIdx val : Nat)
  /-- the dmb() visibility barrier after the OCRAM preload. -/
  | barrier
  /-- one synchronous work_on_cpu dispatch of firq_setup_fiq_regs_cpu. -/
  | dispatchBootstrap (cpu : Nat)
  /-- successful claim_fiq of the FIQ vector. -/
  | claimVector
  /-- set_fiq_handler with the given handler byte length. -/
  | setHandler (size : Nat)
  /-- enable_fiq on the given interrupt line. -/
  | enableLine (irq : Nat)
  /-- the firq_singleton flag is set true. -/
  | setSingleton
  /-- writel into the EPIT timer window at the given byte offset. -/
  | writeEpit (off val : Nat)
  /-- work_on_cpu dispatch of the teardown body to the given cpu. -/
  | workOnCpu (cpu : Nat)
  /-- local_fiq_disable on the executing core. -/
  | maskLocalFiq
  /-- local_fiq_enable on the executing core. -/
  | unmaskLocalFiq
  /-- disable_fiq on the given interrupt line. -/
  | disableLine (irq : Nat)
  /-- release_fiq of the FIQ vector. -/
  | releaseVector
  /-- the firq_singleton flag is cleared. -/
  | clearSingleton
  deriving DecidableEq, Repr

/-- The ARM pt_regs snapshot handled by get_fiq_regs/set_fiq_regs:
    seventeen user registers plus orig_r0 (uregs[18] minus the padding slot
    is irrelevant here; we carry the named fields). ARM_sp is the field sp. -/
structure PtRegs where
  r0 : Nat
  r1 : Nat
  r2 : Nat
  r3 : Nat
  r4 : Nat
  r5 : Nat
  r6 : Nat
  r7 : Nat
  r8 : Nat
  r9 : Nat
  r10 : Nat
  fp : Nat
  ip : Nat
  sp : Nat
  lr : Nat
  pc : Nat
  cpsr : Nat
  orig_r0 : Nat
  deriving DecidableEq, Repr

/-- The three EPIT registers the driver touches: CR at byte offset 0x0,
    SR at 0x4, LR at 0x8. Values are the last stored u32. -/
structure EpitRegs where
  cr : Nat
  sr : Nat
  lr : Nat
  deriving DecidableEq, Repr

/-- struct firq_priv: the three mapped register windows (kept as numeric
    handle values, an address value of 0 modelling NULL) and the irq line. -/
structure FirqPriv where
  gic_cpu_regs : Nat
  ocram_regs : Nat
  epit2_regs : Nat
  irq : Nat
  deriving DecidableEq, Repr

/-- The machine state the driver manipulates: the process-wide singleton
    flag, whether this driver holds the FIQ vector claim, the installed
    handler (start symbol value and byte length), which line enable_fiq was
    last applied to, the OCRAM scratch block as a word-indexed store, the
    EPIT registers, each core's banked FIQ-mode register snapshot, the local
    FIQ mask of the executing core, and the platform drvdata slot. -/
structure FirqState where
  singleton : Bool
  fiqClaimed : Bool
  fiqHandler : Option (Nat × Nat)
  fiqEnabled : Option Nat
  ocram : Nat → Nat
  epit : EpitRegs
  fiqRegs : Nat → PtRegs
  localFiqMasked : Bool
  drvdata : Option FirqPriv

/-- A word store into the OCRAM block at a word index. -/
def writeWord (r : Nat → Nat) (i v : Nat) : Nat → Nat :=
  fun j => if j = i then v else r j

/-- One writel into OCRAM: updates the store and appends the event. -/
def doWritel (p : FirqState × List Event) (i v : Nat) : FirqState × List Event :=
  ({ p.1 with ocram := writeWord p.1.ocram i v }, p.2 ++ [Event.writeOcram i v])

/-- The ocram_setupdata array of firq_setup_fiq_regs: the three u32 casts
    of the GIC CPU-interface base, the irq line and the EPIT base. -/
def ocram_setupdata (priv : FirqPriv) : List Nat :=
  [priv.gic_cpu_regs % 2 ^ 32, priv.irq % 2 ^ 32, priv.epit2_regs % 2 ^ 32]

/-- firq_setup_fiq_regs_cpu: reads the FIQ-mode register snapshot of the
    core it runs on, overwrites ARM_sp with the u32 cast of the OCRAM
    window address, writes the snapshot back, returns 0. -/
def firq_setup_fiq_regs_cpu (priv : FirqPriv) (regs : PtRegs) : Int × PtRegs :=
  (0, { regs with sp := priv.ocram_regs % 2 ^ 32 })

/-- firq_setup_fiq_regs: erase the 0x100-byte OCRAM block word by word
    (the C loop for i = 0, 4, ..., 0xfc, hence word indices 0..63), preload
    the ocram_setupdata words at indices 0..2, dmb(), then sequentially
    work_on_cpu the per-core bootstrap over every possible cpu (0..n-1). -/
def firq_setup_fiq_regs (n : Nat) (priv : FirqPriv) (s : FirqState) :
    FirqState × List Event :=
  let p1 := (List.range 64).foldl (fun q i => doWritel q i 0) (s, [])
  let p2 := (List.range (ocram_setupdata priv).length).foldl
    (fun q i => doWritel q i ((ocram_setupdata priv).getD i 0)) p1
  let p3 := (p2.1, p2.2 ++ [Event.barrier])
  (List.range n).foldl
    (fun q cpu =>
      let r := firq_setup_fiq_regs_cpu priv (q.1.fiqRegs cpu)
      ({ q.1 with fiqRegs := fun c => if c = cpu then r.2 else q.1.fiqRegs c },
       q.2 ++ [Event.dispatchBootstrap cpu]))
    p3

/-- A writel into the EPIT window, dispatched by byte offset
    (CR at 0x0, SR at 0x4, LR at 0x8). -/
def writeEpitReg (e : EpitRegs) (off v : Nat) : EpitRegs :=
  if off = 0 then { e with cr := v }
  else if off = 4 then { e with sr := v }
  else if off = 8 then { e with lr := v }
  else e

/-- The EPIT start sequence of firq_probe, as (byte offset, value) pairs in
    program order: CR := 0, LR := 0xffff, SR := 1,
    CR := EN or ENMOD or OCIEN or RLD or WAITEN or CLKSRC=2,
    LR := 0xffff, SR := 1. -/
def epitStartWrites : List (Nat × Nat) :=
  [(0, 0), (8, 0xffff), (4, 0x1),
   (0, (1 <<< 0) ||| (1 <<< 1) ||| (1 <<< 2) ||| (1 <<< 3) |||
       (1 <<< 19) ||| (0x2 <<< 24)),
   (8, 0xffff), (4, 0x1)]

/-- Outcomes of the external collaborators that firq_probe consults, plus
    the link-time handler symbols and the number of possible cpus. A map
    result of 0 models devm_ioremap returning NULL. -/
structure ProbeEnv where
  allocOk : Bool
  irqRes : Int
  gicMap : Nat
  ocramMap : Nat
  epitMap : Nat
  claimOk : Bool
  handlerStart : Nat
  handlerEnd : Nat
  nCpus : Nat
  deriving DecidableEq, Repr

/-- The firq_priv record firq_probe fills from the environment. -/
def privOf (env : ProbeEnv) : FirqPriv :=
  { gic_cpu_regs := env.gicMap
    ocram_regs := env.ocramMap
    epit2_regs := env.epitMap
    irq := env.irqRes.toNat }

/-- The handler blob length, unsigned int of the symbol difference
    firq_fiq_handler_end minus firq_fiq_handler. -/
def fiq_handler_size (env : ProbeEnv) : Nat :=
  (((env.handlerEnd : Int) - (env.handlerStart : Int)) % (2 ^ 32 : Int)).toNat

/-- Return value, final state and event trace of a driver entry point. -/
structure ProbeResult where
  ret : Int
  st : FirqState
  trace : List Event

/-- The environment resolves every resource firq_probe needs: allocation
    succeeds, platform_get_irq is nonnegative, the three ioremaps are
    non-NULL, and claim_fiq succeeds. -/
def ProbeEnv.valid (env : ProbeEnv) : Prop :=
  env.allocOk = true ∧ 0 ≤ env.irqRes ∧ env.gicMap ≠ 0 ∧
    env.ocramMap ≠ 0 ∧ env.epitMap ≠ 0 ∧ env.claimOk = true

instance (env : ProbeEnv) : Decidable env.valid := by
  unfold ProbeEnv.valid; infer_instance

/-- firq_probe: reject if the singleton flag is set (-EBUSY), then
    devm_kzalloc (-ENOMEM on failure), platform_get_irq (-EINVAL if
    negative), the three devm_ioremaps (-EINVAL if any is NULL), claim_fiq
    (-ENODEV on failure); then set_fiq_handler, firq_setup_fiq_regs,
    platform_set_drvdata, enable_fiq, set the singleton flag, program the
    EPIT start sequence, and return 0. -/
def firq_probe (env : ProbeEnv) (s : FirqState) : ProbeResult :=
  if s.singleton then { ret := -16, st := s, trace := [] }
  else if env.allocOk = false then { ret := -12, st := s, trace := [] }
  else if env.irqRes < 0 then { ret := -22, st := s, trace := [] }
  else if env.gicMap = 0 ∨ env.ocramMap = 0 ∨ env.epitMap = 0 then
    { ret := -22, st := s, trace := [] }
  else if env.claimOk = false then { ret := -19, st := s, trace := [] }
  else
    let priv := privOf env
    let s1 := { s with fiqClaimed := true,
                       fiqHandler := some (env.handlerStart, fiq_handler_size env) }
    let p2 := firq_setup_fiq_regs env.nCpus priv s1
    let s3 := { p2.1 with drvdata := some priv,
                          fiqEnabled := some priv.irq,
                          singleton := true }
    let s4 := { s3 with
                epit := epitStartWrites.foldl (fun e w => writeEpitReg e w.1 w.2) s3.epit }
    { ret := 0
      st := s4
      trace := [Event.claimVector, Event.setHandler (fiq_handler_size env)] ++ p2.2 ++
        [Event.enableLine priv.irq, Event.setSingleton] ++
        epitStartWrites.map (fun w => Event.writeEpit w.1 w.2) }

/-- firq_remove_cpu0, the teardown body that work_on_cpu runs on core 0:
    local_fiq_disable, stop the EPIT by writel 0 to CR, disable_fiq on the
    line, local_fiq_enable, release_fiq, clear the singleton flag,
    return 0. -/
def firq_remove_cpu0 (priv : FirqPriv) (s : FirqState) : ProbeResult :=
  let s1 := { s with localFiqMasked := true }
  let s2 := { s1 with epit := writeEpitReg s1.epit 0 0 }
  let s3 := { s2 with fiqEnabled := none }
  let s4 := { s3 with localFiqMasked := false }
  let s5 := { s4 with fiqClaimed := false }
  let s6 := { s5 with singleton := false }
  { ret := 0
    st := s6
    trace := [Event.maskLocalFiq, Event.writeEpit 0 0, Event.disableLine priv.irq,
              Event.unmaskLocalFiq, Event.releaseVector, Event.clearSingleton] }

/-- firq_remove: fetches drvdata and unconditionally dispatches the
    teardown to core 0 via work_on_cpu, whatever core the call arrives on
    (the calling core is a parameter only to record that the code never
    consults it), returning the teardown's return value. -/
def firq_remove (_callerCpu : Nat) (priv : FirqPriv) (s : FirqState) : ProbeResult :=
  let r := firq_remove_cpu0 priv s
  { ret := r.ret, st := r.st, trace := Event.workOnCpu 0 :: r.trace }

/-- The EPIT writes of a trace, in order, as (byte offset, value) pairs. -/
def epitWritesOf (tr : List Event) : List (Nat × Nat) :=
  tr.filterMap fun e =>
    match e with
    | Event.writeEpit off v => some (off, v)
    | _ => none

/-- An all-zero machine state used as a concrete starting point. -/
def initState : FirqState :=
  { singleton := false
    fiqClaimed := false
    fiqHandler := none
    fiqEnabled := none
    ocram := fun _ => 0
    epit := { cr := 0, sr := 0, lr := 0 }
    fiqRegs := fun _ =>
      { r0 := 0, r1 := 0, r2 := 0, r3 := 0, r4 := 0, r5 := 0, r6 := 0, r7 := 0
        r8 := 0, r9 := 0, r10 := 0, fp := 0, ip := 0, sp := 0, lr := 0, pc := 0
        cpsr := 0, orig_r0 := 0 }
    localFiqMasked := false
    drvdata := none }

/-- A concrete valid environment for witnesses: the hardcoded window
    addresses of the driver as map results, irq line 87, four cpus and a
    64-byte handler blob. -/
def envDemo : ProbeEnv :=
  { allocOk := true
    irqRes := 87
    gicMap := 0x00a00100
    ocramMap := 0x00940000
    epitMap := 0x020d4000
    claimOk := true
    handlerStart := 0x8000
    handlerEnd := 0x8040
    nCpus := 4 }

/-! Closed forms of the three loops of firq_setup_fiq_regs. -/

lemma foldl_doWritel (f : Nat → Nat) :
    ∀ (n : Nat) (p : FirqState × List Event),
      (List.range n).foldl (fun q i => doWritel q i (f i)) p =
        ({ p.1 with ocram := fun j => if j < n then f j else p.1.ocram j },
         p.2 ++ (List.range n).map (fun i => Event.writeOcram i (f i))) := by
  intro n
  induction n with
  | zero =>
    intro p
    simp only [List.range_zero, List.foldl_nil, List.map_nil, List.append_nil]
    have h : (fun j => if j < 0 then f j else p.1.ocram j) = p.1.ocram := by
      funext j; simp
    rw [h]
  | succ n ih =>
    intro p
    rw [List.range_succ, List.foldl_append, List.map_append, ih]
    simp only [List.foldl_cons, List.foldl_nil, doWritel, List.map_cons, List.map_nil]
    rw [Prod.mk.injEq]
    constructor
    · have h : writeWord (fun j => if j < n then f j else p.1.ocram j) n (f n) =
          fun j => if j < n + 1 then f j else p.1.ocram j := by
        funext j
        simp only [writeWord]
        by_cases hj : j = n
        · subst hj; simp
        · by_cases hj2 : j < n
          · simp [hj, hj2, Nat.lt_succ_of_lt hj2]
          · have hj3 : ¬ j < n + 1 := by omega
            simp [hj, hj2, hj3]
      rw [h]
    · simp [List.append_assoc]

lemma foldl_erase (p : FirqState × List Event) :
    (List.range 64).foldl (fun q i => doWritel q i 0) p =
      ({ p.1 with ocram := fun j => if j < 64 then 0 else p.1.ocram j },
       p.2 ++ (List.range 64).map (fun i => Event.writeOcram i 0)) :=
  foldl_doWritel (fun _ => 0) 64 p

lemma foldl_preload (priv : FirqPriv) (p : FirqState × List Event) :
    (List.range (ocram_setupdata priv).length).foldl
        (fun q i => doWritel q i ((ocram_setupdata priv).getD i 0)) p =
      ({ p.1 with ocram := fun j =>
            if j < 3 then (ocram_setupdata priv).getD j 0 else p.1.ocram j },
       p.2 ++ (List.range 3).map
          (fun i => Event.writeOcram i ((ocram_setupdata priv).getD i 0))) :=
  foldl_doWritel (fun i => (ocram_setupdata priv).getD i 0) 3 p

lemma foldl_dispatch (priv : FirqPriv) :
    ∀ (n : Nat) (p : FirqState × List Event),
      (List.range n).foldl
        (fun q cpu =>
          ({ q.1 with fiqRegs := fun c =>
                if c = cpu then (firq_setup_fiq_regs_cpu priv (q.1.fiqRegs cpu)).2
                else q.1.fiqRegs c },
           q.2 ++ [Event.dispatchBootstrap cpu])) p =
      ({ p.1 with fiqRegs := fun c =>
            if c < n then (firq_setup_fiq_regs_cpu priv (p.1.fiqRegs c)).2
            else p.1.fiqRegs c },
       p.2 ++ (List.range n).map Event.dispatchBootstrap) := by
  intro n
  induction n with
  | zero =>
    intro p
    simp only [List.range_zero, List.foldl_nil, List.map_nil, List.append_nil]
    have h : (fun c => if c < 0
          then (firq_setup_fiq_regs_cpu priv (p.1.fiqRegs c)).2
          else p.1.fiqRegs c) = p.1.fiqRegs := by
      funext c; simp
    rw [h]
  | succ n ih =>
    intro p
    rw [List.range_succ, List.foldl_append, List.map_append, ih]
    simp only [List.foldl_cons, List.foldl_nil, List.map_cons, List.map_nil]
    rw [Prod.mk.injEq]
    constructor
    · have h : (fun c =>
          if c = n then (firq_setup_fiq_regs_cpu priv (p.1.fiqRegs n)).2
          else if c < n then (firq_setup_fiq_regs_cpu priv (p.1.fiqRegs c)).2
          else p.1.fiqRegs c) =
          fun c => if c < n + 1
            then (firq_setup_fiq_regs_cpu priv (p.1.fiqRegs c)).2
            else p.1.fiqRegs c := by
        funext c
        by_cases hc : c = n
        · subst hc; simp
        · by_cases hc2 : c < n
          · simp [hc, hc2, Nat.lt_succ_of_lt hc2]
          · have hc3 : ¬ c < n + 1 := by omega
            simp [hc, hc2, hc3]
      simp only [lt_self_iff_false, if_false]
      rw [h]
    · simp [List.append_assoc]

/-- Closed form of firq_setup_fiq_regs: the OCRAM block holds the three
    setup words at indices 0..2 and zero up to index 63, every cpu below n
    has its FIQ-mode sp pointed at the OCRAM window, everything else is
    unchanged, and the trace is the 64 erase writes, the 3 preload writes,
    the barrier, then one dispatch per cpu in order. -/
lemma firq_setup_fiq_regs_eq (n : Nat) (priv : FirqPriv) (s : FirqState) :
    firq_setup_fiq_regs n priv s =
      ({ s with
          ocram := fun j =>
            if j < 3 then (ocram_setupdata priv).getD j 0
            else if j < 64 then 0 else s.ocram j,
          fiqRegs := fun c =>
            if c < n then { s.fiqRegs c with sp := priv.ocram_regs % 2 ^ 32 }
            else s.fiqRegs c },
       (List.range 64).map (fun i => Event.writeOcram i 0) ++
         (List.range 3).map (fun i => Event.writeOcram i ((ocram_setupdata priv).getD i 0)) ++
         [Event.barrier] ++ (List.range n).map Event.dispatchBootstrap) := by
  simp only [firq_setup_fiq_regs]
  rw [foldl_erase, foldl_preload, foldl_dispatch]
  rw [Prod.mk.injEq]
  constructor
  · congr 1
  · simp [List.append_assoc]

/-- The setup phase never touches the installed-handler slot. -/
lemma firq_setup_fiq_regs_fiqHandler (n : Nat) (priv : FirqPriv) (s : FirqState) :
    (firq_setup_fiq_regs n priv s).1.fiqHandler = s.fiqHandler := by
  rw [firq_setup_fiq_regs_eq]

/-- Boundary resource set: every address handle is the value 0. -/
def privBoundary : FirqPriv :=
  { gic_cpu_regs := 0, ocram_regs := 0, epit2_regs := 0, irq := 0 }

/-- A state in which the driver is already active (singleton set), with
    the EPIT configured and enabled as firq_probe leaves it. -/
def runningState : FirqState :=
  { initState with
      singleton := true
      fiqClaimed := true
      fiqEnabled := some 87
      epit := { cr := 34078735, sr := 1, lr := 65535 } }

/-- C2: after the erase-and-preload phase of firq_setup_fiq_regs, the
    256-byte OCRAM shared region holds exactly the GIC CPU-interface base
    at byte offset 0 (word index 0), the interrupt line at byte offset 4
    (word index 1), the EPIT base at byte offset 8 (word index 2), and zero
    in every other word of the block, for every resource set including
    address value 0. -/
theorem setup_fiq_regs_region_layout (n : Nat) (priv : FirqPriv) (s : FirqState) :
    (firq_setup_fiq_regs n priv s).1.ocram 0 = priv.gic_cpu_regs % 2 ^ 32 ∧
    (firq_setup_fiq_regs n priv s).1.ocram 1 = priv.irq % 2 ^ 32 ∧
    (firq_setup_fiq_regs n priv s).1.ocram 2 = priv.epit2_regs % 2 ^ 32 ∧
    ∀ j, 3 ≤ j → j < 64 → (firq_setup_fiq_regs n priv s).1.ocram j = 0 := by
  rw [firq_setup_fiq_regs_eq]
  refine ⟨by simp [ocram_setupdata], by simp [ocram_setupdata],
          by simp [ocram_setupdata], ?_⟩
  intro j h3 h64
  have h3' : ¬ j < 3 := by omega
  simp [h3', h64]

/-- Witness for C2 at the boundary resource set of all-zero addresses. -/
theorem setup_fiq_regs_region_layout_witness :
    3 ≤ 5 ∧ 5 < 64 ∧
      (firq_setup_fiq_regs 2 privBoundary initState).1.ocram 5 = 0 ∧
      (firq_setup_fiq_regs 2 privBoundary initState).1.ocram 0 = 0 % 2 ^ 32 :=
  ⟨by decide, by decide,
   (setup_fiq_regs_region_layout 2 privBoundary initState).2.2.2 5 (by decide) (by decide),
   (setup_fiq_regs_region_layout 2 privBoundary initState).1⟩

/-- C3: a start request while the singleton flag is set returns -EBUSY
    immediately and performs no side effects: the state is unchanged and
    the event trace is empty, so nothing was allocated, written or
    claimed. -/
theorem probe_busy_no_side_effects (env : ProbeEnv) (s : FirqState)
    (h : s.singleton = true) :
    (firq_probe env s).ret = -16 ∧ (firq_probe env s).st = s ∧
      (firq_probe env s).trace = [] := by
  simp [firq_probe, h]

/-- Witness for C3: a concrete busy state rejected with -EBUSY. -/
theorem probe_busy_no_side_effects_witness :
    runningState.singleton = true ∧ (firq_probe envDemo runningState).ret = -16 :=
  ⟨rfl, (probe_busy_no_side_effects envDemo runningState rfl).1⟩

/-- C4 counterexample: a stop request arriving on core 1 while the driver
    is active does not fail with any WrongCore fault and does not leave the
    state unchanged: it returns 0 and the teardown executes, clearing the
    singleton flag. -/
theorem remove_wrong_core_counterexample :
    (firq_remove 1 (privOf envDemo) runningState).ret = 0 ∧
    (firq_remove 1 (privOf envDemo) runningState).st.singleton = false :=
  ⟨rfl, rfl⟩

/-- C4 amended: firq_remove never consults the calling core and has no
    WrongCore fault; from every calling core it redirects the teardown to
    core 0 via a synchronous work_on_cpu, the teardown executes fully
    (singleton cleared, vector released), and the call returns 0. -/
theorem remove_redirects_to_core0 (callerCpu : Nat) (priv : FirqPriv) (s : FirqState) :
    (firq_remove callerCpu priv s).ret = 0 ∧
    (firq_remove callerCpu priv s).trace.head? = some (Event.workOnCpu 0) ∧
    (firq_remove callerCpu priv s).st.singleton = false ∧
    (firq_remove callerCpu priv s).st.fiqClaimed = false :=
  ⟨rfl, rfl, rfl, rfl⟩

/-- C5 counterexample: from the control-register value firq_probe installs
    (0x208000F), the stop body leaves CR equal to 0, not equal to the value
    with only the enable bit cleared (0x208000E): the other configuration
    bits are destroyed, refuting that stop clears only the enable bit. -/
theorem remove_cpu0_cr_counterexample :
    (firq_remove_cpu0 (privOf envDemo) runningState).st.epit.cr ≠
      runningState.epit.cr &&& 0xFFFFFFFE := by decide

/-- C5 amended: the stop body writes zero to the entire EPIT control
    register, clearing the enable bit together with every other
    configuration bit; the reload register and the status register are left
    untouched, so the timer produces no further interrupts. -/
theorem remove_cpu0_clears_whole_cr (priv : FirqPriv) (s : FirqState) :
    (firq_remove_cpu0 priv s).st.epit.cr = 0 ∧
    (firq_remove_cpu0 priv s).st.epit.lr = s.epit.lr ∧
    (firq_remove_cpu0 priv s).st.epit.sr = s.epit.sr :=
  ⟨rfl, rfl, rfl⟩

/-- C8: the per-core bootstrap reads the FIQ-mode register snapshot of the
    core it runs on, overwrites only the stack-pointer field with the
    OCRAM shared-region address, writes every other banked field back with
    the value that was read, and returns 0. -/
theorem setup_fiq_regs_cpu_frame (priv : FirqPriv) (regs : PtRegs) :
    (firq_setup_fiq_regs_cpu priv regs).1 = 0 ∧
    (firq_setup_fiq_regs_cpu priv regs).2.sp = priv.ocram_regs % 2 ^ 32 ∧
    (firq_setup_fiq_regs_cpu priv regs).2.r0 = regs.r0 ∧
    (firq_setup_fiq_regs_cpu priv regs).2.r1 = regs.r1 ∧
    (firq_setup_fiq_regs_cpu priv regs).2.r2 = regs.r2 ∧
    (firq_setup_fiq_regs_cpu priv regs).2.r3 = regs.r3 ∧
    (firq_setup_fiq_regs_cpu priv regs).2.r4 = regs.r4 ∧
    (firq_setup_fiq_regs_cpu priv regs).2.r5 = regs.r5 ∧
    (firq_setup_fiq_regs_cpu priv regs).2.r6 = regs.r6 ∧
    (firq_setup_fiq_regs_cpu priv regs).2.r7 = regs.r7 ∧
    (firq_setup_fiq_regs_cpu priv regs).2.r8 = regs.r8 ∧
    (firq_setup_fiq_regs_cpu priv regs).2.r9 = regs.r9 ∧
    (firq_setup_fiq_regs_cpu priv regs).2.r10 = regs.r10 ∧
    (firq_setup_fiq_regs_cpu priv regs).2.fp = regs.fp ∧
    (firq_setup_fiq_regs_cpu priv regs).2.ip = regs.ip ∧
    (firq_setup_fiq_regs_cpu priv regs).2.lr = regs.lr ∧
    (firq_setup_fiq_regs_cpu priv regs).2.pc = regs.pc ∧
    (firq_setup_fiq_regs_cpu priv regs).2.cpsr = regs.cpsr ∧
    (firq_setup_fiq_regs_cpu priv regs).2.orig_r0 = regs.orig_r0 :=
  ⟨rfl, rfl, rfl, rfl, rfl, rfl, rfl, rfl, rfl, rfl, rfl, rfl, rfl, rfl,
   rfl, rfl, rfl, rfl, rfl⟩

/-- C9: the trace of firq_setup_fiq_regs is exactly the 64 erase writes,
    then the 3 field preload writes, then the memory barrier, then one
    synchronous bootstrap dispatch per possible cpu in sequence: every
    shared-region write and the barrier occur strictly before any dispatch,
    and each of the n cpus is dispatched exactly once, in order. -/
theorem setup_fiq_regs_trace_order (n : Nat) (priv : FirqPriv) (s : FirqState) :
    (firq_setup_fiq_regs n priv s).2 =
      (List.range 64).map (fun i => Event.writeOcram i 0) ++
        (List.range 3).map (fun i => Event.writeOcram i ((ocram_setupdata priv).getD i 0)) ++
        [Event.barrier] ++ (List.range n).map Event.dispatchBootstrap := by
  rw [firq_setup_fiq_regs_eq]

/-- C1: from any idle state, a successful start immediately followed by
    stop returns to idle: the singleton flag is clear, the vector claim is
    released, and the teardown trace is exactly the documented sequence —
    local FIQ mask, timer stop (CR write of 0), interrupt-line disable,
    local unmask, vector release, singleton clear — in that order, after
    the redirecting dispatch to core 0. -/
theorem probe_then_remove_roundtrip (env : ProbeEnv) (s : FirqState) (callerCpu : Nat)
    (hs : s.singleton = false) (hv : env.valid) :
    (firq_probe env s).ret = 0 ∧
    (firq_probe env s).st.drvdata = some (privOf env) ∧
    (firq_remove callerCpu (privOf env) (firq_probe env s).st).ret = 0 ∧
    (firq_remove callerCpu (privOf env) (firq_probe env s).st).st.singleton = false ∧
    (firq_remove callerCpu (privOf env) (firq_probe env s).st).st.fiqClaimed = false ∧
    (firq_remove callerCpu (privOf env) (firq_probe env s).st).trace =
      [Event.workOnCpu 0, Event.maskLocalFiq, Event.writeEpit 0 0,
       Event.disableLine (privOf env).irq, Event.unmaskLocalFiq,
       Event.releaseVector, Event.clearSingleton] := by
  obtain ⟨h1, h2, h3, h4, h5, h6⟩ := hv
  have h2' : ¬ env.irqRes < 0 := not_lt.mpr h2
  simp [firq_probe, firq_remove, firq_remove_cpu0, hs, h1, h2', h3, h4, h5, h6]

/-- Witness for C1 at the demo environment, stopping from core 3. -/
theorem probe_then_remove_roundtrip_witness :
    initState.singleton = false ∧ envDemo.valid ∧
    (firq_remove 3 (privOf envDemo) (firq_probe envDemo initState).st).st.singleton = false :=
  ⟨rfl, by decide,
   (probe_then_remove_roundtrip envDemo initState 3 rfl (by decide)).2.2.2.1⟩

/-- Environment in which claim_fiq fails, for exercising an error path. -/
def envNoClaim : ProbeEnv := { envDemo with claimOk := false }

/-- C10: starting from an idle state, every nonzero return of firq_probe
    leaves the singleton flag false and the vector unclaimed by this driver
    (every error path precedes the vector claim or is the claim failure
    itself), and whenever every collaborator succeeds — in particular once
    claim_fiq has succeeded — firq_probe returns 0 with the singleton flag
    set. -/
theorem probe_error_paths_clean (env : ProbeEnv) (s : FirqState)
    (hs : s.singleton = false) (hc : s.fiqClaimed = false) :
    ((firq_probe env s).ret ≠ 0 →
      (firq_probe env s).st.singleton = false ∧
        (firq_probe env s).st.fiqClaimed = false) ∧
    (env.valid → (firq_probe env s).ret = 0 ∧ (firq_probe env s).st.singleton = true) := by
  constructor
  · intro hret
    by_cases h1 : env.allocOk = false
    · simp [firq_probe, hs, h1, hc]
    · by_cases h2 : env.irqRes < 0
      · simp [firq_probe, hs, h1, h2, hc]
      · by_cases h3 : env.gicMap = 0 ∨ env.ocramMap = 0 ∨ env.epitMap = 0
        · simp [firq_probe, hs, h1, h2, h3, hc]
        · by_cases h4 : env.claimOk = false
          · simp [firq_probe, hs, h1, h2, h3, h4, hc]
          · exact absurd (by simp [firq_probe, hs, h1, h2, h3, h4]) hret
  · intro hv
    obtain ⟨h1, h2, h3, h4, h5, h6⟩ := hv
    have h2' : ¬ env.irqRes < 0 := not_lt.mpr h2
    simp [firq_probe, hs, h1, h2', h3, h4, h5, h6]

/-- Witness for C10 on the claim-failure path. -/
theorem probe_error_paths_clean_witness :
    initState.singleton = false ∧ initState.fiqClaimed = false ∧
    (firq_probe envNoClaim initState).ret ≠ 0 ∧
    (firq_probe envNoClaim initState).st.singleton = false :=
  ⟨rfl, rfl, by decide,
   ((probe_error_paths_clean envNoClaim initState rfl rfl).1 (by decide)).1⟩

/-- Environment whose handler end symbol equals its start symbol, so the
    handler blob length is zero. -/
def envZeroBlob : ProbeEnv := { envDemo with handlerEnd := envDemo.handlerStart }

/-- C6 counterexample: with a zero-length handler blob and every resource
    valid, firq_probe does not fail with any install fault: it returns 0,
    registers the handler with recorded length 0, and reaches the running
    state with the singleton flag set. -/
theorem probe_zero_length_counterexample :
    (firq_probe envZeroBlob initState).ret = 0 ∧
    (firq_probe envZeroBlob initState).st.fiqHandler = some (0x8000, 0) ∧
    (firq_probe envZeroBlob initState).st.singleton = true := by
  decide

/-- C6 amended: firq_probe performs no validation of the handler blob
    length: when the end symbol equals the start symbol it computes length
    0, still installs the handler (recording length 0), and the start
    completes successfully instead of failing. -/
theorem probe_zero_length_accepted (env : ProbeEnv) (s : FirqState)
    (hs : s.singleton = false) (hv : env.valid)
    (hz : env.handlerEnd = env.handlerStart) :
    (firq_probe env s).ret = 0 ∧
    (firq_probe env s).st.fiqHandler = some (env.handlerStart, 0) ∧
    (firq_probe env s).st.singleton = true := by
  obtain ⟨h1, h2, h3, h4, h5, h6⟩ := hv
  have h2' : ¬ env.irqRes < 0 := not_lt.mpr h2
  have hsize : fiq_handler_size env = 0 := by
    simp [fiq_handler_size, hz]
  simp [firq_probe, hs, h1, h2', h3, h4, h5, h6, hsize,
    firq_setup_fiq_regs_fiqHandler]

/-- Witness for C6 amended at the zero-length environment. -/
theorem probe_zero_length_accepted_witness :
    envZeroBlob.handlerEnd = envZeroBlob.handlerStart ∧
    (firq_probe envZeroBlob initState).st.fiqHandler = some (0x8000, 0) :=
  ⟨rfl, (probe_zero_length_accepted envZeroBlob initState rfl (by decide) rfl).2.1⟩

/-- The timer start write sequence as the specification documents it
    (a second, spec-side definition kept for comparison with the code's
    epitStartWrites): control register to 0, reload value, status clear,
    the enable control word, status clear again — with no second reload
    write. -/
def epitStartWritesDocumented : List (Nat × Nat) :=
  [(0, 0), (8, 0xffff), (4, 0x1),
   (0, (1 <<< 0) ||| (1 <<< 1) ||| (1 <<< 2) ||| (1 <<< 3) |||
       (1 <<< 19) ||| (0x2 <<< 24)),
   (4, 0x1)]

/-- C7 counterexample: the EPIT writes a successful firq_probe actually
    performs differ from the documented five-write sequence — the code
    rewrites the reload register with 0xffff between the enable write and
    the final status clear. -/
theorem epit_write_sequence_counterexample :
    epitWritesOf (firq_probe envDemo initState).trace ≠ epitStartWritesDocumented := by
  decide

/-- The setup phase performs no EPIT writes. -/
lemma epitWritesOf_setup (n : Nat) (priv : FirqPriv) (s : FirqState) :
    epitWritesOf (firq_setup_fiq_regs n priv s).2 = [] := by
  rw [firq_setup_fiq_regs_eq]
  simp [epitWritesOf, List.filterMap_append, List.filterMap_map, Function.comp]

lemma epitWritesOf_append (a b : List Event) :
    epitWritesOf (a ++ b) = epitWritesOf a ++ epitWritesOf b := by
  simp [epitWritesOf]

lemma epitWritesOf_cons_claimVector (tr : List Event) :
    epitWritesOf (Event.claimVector :: tr) = epitWritesOf tr := rfl

lemma epitWritesOf_cons_setHandler (n : Nat) (tr : List Event) :
    epitWritesOf (Event.setHandler n :: tr) = epitWritesOf tr := rfl

lemma epitWritesOf_cons_enableLine (i : Nat) (tr : List Event) :
    epitWritesOf (Event.enableLine i :: tr) = epitWritesOf tr := rfl

lemma epitWritesOf_cons_setSingleton (tr : List Event) :
    epitWritesOf (Event.setSingleton :: tr) = epitWritesOf tr := rfl

/-- C7 amended: a successful firq_probe performs exactly the write
    sequence of epitStartWrites on the timer: CR to 0, reload to the
    period, status clear, the enable control word, then — additionally to
    the documented sequence — the reload value again, and the final status
    clear. -/
theorem epit_write_sequence_actual (env : ProbeEnv) (s : FirqState)
    (hs : s.singleton = false) (hv : env.valid) :
    epitWritesOf (firq_probe env s).trace = epitStartWrites := by
  obtain ⟨h1, h2, h3, h4, h5, h6⟩ := hv
  have h2' : ¬ env.irqRes < 0 := not_lt.mpr h2
  have ht : (firq_probe env s).trace =
      Event.claimVector :: Event.setHandler (fiq_handler_size env) ::
        ((firq_setup_fiq_regs env.nCpus (privOf env)
            { s with fiqClaimed := true,
                     fiqHandler := some (env.handlerStart, fiq_handler_size env) }).2 ++
          (Event.enableLine (privOf env).irq :: Event.setSingleton ::
            epitStartWrites.map (fun w => Event.writeEpit w.1 w.2))) := by
    simp [firq_probe, hs, h1, h2', h3, h4, h5, h6]
  rw [ht, epitWritesOf_cons_claimVector, epitWritesOf_cons_setHandler,
    epitWritesOf_append, epitWritesOf_setup, List.nil_append,
    epitWritesOf_cons_enableLine, epitWritesOf_cons_setSingleton]
  rfl

/-- Witness for C7 amended at the demo environment. -/
theorem epit_write_sequence_actual_witness :
    initState.singleton = false ∧ envDemo.valid ∧
    epitWritesOf (firq_probe envDemo initState).trace = epitStartWrites :=
  ⟨rfl, by decide, epit_write_sequence_actual envDemo initState rfl (by decide)⟩

end Firq
